import Mathlib

/-!
Shallow embedding of the `vm_challenge` bytecode virtual machine.

`src/value.rs` is embedded as operations on naturals below 65536 (the Rust
`Value` wraps a `u16`): classification into number / register / invalid,
conversions, and the arithmetic and bitwise operators.  `src/machine.rs` is
embedded as a `VM` state record with a `step` function; a Rust `panic!` or
out-of-bounds `Vec` index (which aborts the process) is modelled by `none`,
and the one interactive read in the `in` opcode is supplied through an
explicit environment (`StepEnv`).  Character output of `out` is collected in
the step result; the diagnostic printed on a decode failure is recorded as a
boolean flag.
-/

namespace VMChallenge

/-- A machine cell: the Rust `Value(u16)`, modelled as a natural < 65536. -/
abbrev Value := Nat

/-- `MATH_MOD` from `value.rs`. -/
def MATH_MOD : Nat := 32768

/-- `MATH_MASK = !(32768 : u16) = 32767` from `value.rs`. -/
def MATH_MASK : Nat := 32767

/-- The three-way classification `ValueState` from `value.rs`. -/
inductive ValueState where
  | Number (n : Nat)
  | Register (i : Nat)
  | Invalid
deriving DecidableEq

/-- `Value::get_value_state`: range-based classification of a raw cell. -/
def getValueState (v : Value) : ValueState :=
  if v ≤ 32767 then ValueState.Number v
  else if v ≤ 32775 then ValueState.Register (v - 32768)
  else ValueState.Invalid

/-- `Value::to_register`: only a register selector yields an index; the
source panics (modelled `none`) on numbers and invalid cells. -/
def toRegister (v : Value) : Option Nat :=
  match getValueState v with
  | ValueState.Register i => some i
  | _ => none

/-- `Value::to_number`: only a plain number yields a payload; the source
panics (modelled `none`) on register selectors and invalid cells. -/
def toNumber (v : Value) : Option Nat :=
  match getValueState v with
  | ValueState.Number n => some n
  | _ => none

/-- `Value::to_ascii`: `char::from_u32` on a `u16` fails exactly on the
UTF-16 surrogate range `0xD800..=0xDFFF`; the panic is modelled by `none`. -/
def toAscii (v : Value) : Option Nat :=
  if 55296 ≤ v ∧ v ≤ 57343 then none else some v

/-- `impl Add for Value`: `(a + b) % MATH_MOD` computed in `u32`, where the
sum of two `u16` values never overflows. -/
def valueAdd (a b : Value) : Value := (a + b) % MATH_MOD

/-- `impl Mul for Value`: `(a * b) % MATH_MOD` computed in `u32`, where the
product of two `u16` values never overflows. -/
def valueMul (a b : Value) : Value := (a * b) % MATH_MOD

/-- `impl Rem for Value`: the raw `u16` remainder `self.0 % rhs.0`, with no
reduction modulo `MATH_MOD`; a zero divisor panics (modelled `none`). -/
def valueRem (a b : Value) : Option Value :=
  if b = 0 then none else some (a % b)

/-- `impl BitAnd for Value`: raw 16-bit bitwise and. -/
def valueAnd (a b : Value) : Value := a &&& b

/-- `impl BitOr for Value`: raw 16-bit bitwise or. -/
def valueOr (a b : Value) : Value := a ||| b

/-- `impl Not for Value`: `u16` complement (`65535 - v` for `v < 65536`)
masked with `MATH_MASK`. -/
def bitNot (v : Value) : Value := (65535 - v) &&& MATH_MASK

/-- The opcode enumeration from `machine.rs` (`In` is spelled `Inp` because
`In` is a Lean keyword). -/
inductive Opcode where
  | Halt | Set | Push | Pop | Eq | Gt | Jmp | Jt | Jf | Add | Mult | Mod
  | And | Or | Not | Rmem | Wmem | Call | Ret | Out | Inp | Noop
deriving DecidableEq

/-- `Opcode::num_args`. -/
def numArgs : Opcode → Nat
  | Opcode.Halt | Opcode.Noop => 0
  | Opcode.Push | Opcode.Pop | Opcode.Jmp | Opcode.Call | Opcode.Ret
  | Opcode.Out | Opcode.Inp => 1
  | Opcode.Set | Opcode.Jt | Opcode.Jf | Opcode.Not | Opcode.Rmem
  | Opcode.Wmem => 2
  | Opcode.Eq | Opcode.Gt | Opcode.Add | Opcode.Mult | Opcode.Mod
  | Opcode.And | Opcode.Or => 3

/-- `impl TryFrom<Value> for Opcode`: decode failure (unknown number,
register selector, or invalid cell) is `none`. -/
def tryFromValue (v : Value) : Option Opcode :=
  match getValueState v with
  | ValueState.Number 0 => some Opcode.Halt
  | ValueState.Number 1 => some Opcode.Set
  | ValueState.Number 2 => some Opcode.Push
  | ValueState.Number 3 => some Opcode.Pop
  | ValueState.Number 4 => some Opcode.Eq
  | ValueState.Number 5 => some Opcode.Gt
  | ValueState.Number 6 => some Opcode.Jmp
  | ValueState.Number 7 => some Opcode.Jt
  | ValueState.Number 8 => some Opcode.Jf
  | ValueState.Number 9 => some Opcode.Add
  | ValueState.Number 10 => some Opcode.Mult
  | ValueState.Number 11 => some Opcode.Mod
  | ValueState.Number 12 => some Opcode.And
  | ValueState.Number 13 => some Opcode.Or
  | ValueState.Number 14 => some Opcode.Not
  | ValueState.Number 15 => some Opcode.Rmem
  | ValueState.Number 16 => some Opcode.Wmem
  | ValueState.Number 17 => some Opcode.Call
  | ValueState.Number 18 => some Opcode.Ret
  | ValueState.Number 19 => some Opcode.Out
  | ValueState.Number 20 => some Opcode.Inp
  | ValueState.Number 21 => some Opcode.Noop
  | _ => none

/-- `ExecutionState` from `machine.rs`. -/
inductive ExecutionState where
  | Running
  | Complete
deriving DecidableEq

/-- The machine state `VM` from `machine.rs`.  The stack grows at the head
of the list; the input `VecDeque` pops at the head and appends at the tail.
`registers` is the fixed `[Value; 8]` array. -/
structure VM where
  memory : List Value
  stack : List Value
  registers : List Value
  pc : Nat
  input : List Value
deriving DecidableEq

/-- `VM::new`. -/
def VM.new (memory : List Nat) : VM :=
  { memory := memory
    stack := []
    registers := List.replicate 8 0
    pc := 0
    input := [] }

/-- `VM::get_memory`: `self.memory[self.pc + offset]`; an out-of-bounds
index panics (modelled `none`). -/
def VM.getMem (vm : VM) (offset : Nat) : Option Value :=
  vm.memory[vm.pc + offset]?

/-- `VM::set_memory`: a number-classified target writes to that absolute
memory address, a register selector writes to that register, an invalid
target panics; an out-of-bounds index also panics (modelled `none`). -/
def VM.setMem (vm : VM) (target value : Value) : Option VM :=
  match getValueState target with
  | ValueState.Number n =>
      if n < vm.memory.length then
        some { vm with memory := vm.memory.set n value }
      else none
  | ValueState.Register r =>
      if r < vm.registers.length then
        some { vm with registers := vm.registers.set r value }
      else none
  | ValueState.Invalid => none

/-- `VM::get_value`: read the raw cell at `pc + offset`; a register selector
is replaced by the register's content, everything else (numbers and invalid
cells alike) passes through unchanged. -/
def VM.getVal (vm : VM) (offset : Nat) : Option Value := do
  let v ← vm.getMem offset
  match getValueState v with
  | ValueState.Register i => vm.registers[i]?
  | _ => pure v

/-- The environment for one `step`: the line the interactive read would
return when the input queue is empty, and the machine snapshot a `load`
would deserialize from the save file. -/
structure StepEnv where
  line : List Nat
  saved : VM

/-- The bytes of the literal line `save`. -/
def saveLine : List Nat := [115, 97, 118, 101]

/-- The bytes of the literal line `load`. -/
def loadLine : List Nat := [108, 111, 97, 100]

/-- The bytes of the literal line `look` synthesized after a `load`. -/
def lookLine : List Nat := [108, 111, 111, 107]

/-- The result of one `step`: the new machine state, the returned
`ExecutionState`, the character codes printed by `out`, and whether the
decode-error diagnostic was emitted. -/
structure StepResult where
  vm : VM
  state : ExecutionState
  output : List Nat
  diag : Bool
deriving DecidableEq

/-- The tail of the `in` arm after the queue is replenished: pop the front
of the queue (`unwrap` panics on an empty queue), write it through the
address operand, and advance the pc by `num_args + 1 = 2`. -/
def deliverInput (vm2 : VM) : Option StepResult :=
  match vm2.input with
  | [] => none
  | value :: rest => do
      let vmq : VM := { vm2 with input := rest }
      let target ← vmq.getMem 1
      let vm3 ← vmq.setMem target value
      pure ⟨{ vm3 with pc := vm3.pc + 2 }, ExecutionState.Running, [], false⟩

/-- `VM::step`: one fetch-decode-execute cycle.  `none` models a Rust panic
(including out-of-bounds `Vec` indexing); the `Err` branch of decoding
emits a diagnostic, advances the pc by one, and keeps running. -/
def step (env : StepEnv) (vm : VM) : Option StepResult := do
  let c ← vm.memory[vm.pc]?
  match tryFromValue c with
  | none =>
      pure ⟨{ vm with pc := vm.pc + 1 }, ExecutionState.Running, [], true⟩
  | some op =>
    match op with
    | Opcode.Halt => pure ⟨vm, ExecutionState.Complete, [], false⟩
    | Opcode.Set => do
        let t ← vm.getMem 1
        let target ← toRegister t
        let value ← vm.getVal 2
        if target < vm.registers.length then
          pure ⟨{ vm with registers := vm.registers.set target value,
                          pc := vm.pc + 3 },
                ExecutionState.Running, [], false⟩
        else none
    | Opcode.Push => do
        let value ← vm.getVal 1
        pure ⟨{ vm with stack := value :: vm.stack, pc := vm.pc + 2 },
              ExecutionState.Running, [], false⟩
    | Opcode.Pop =>
        match vm.stack with
        | [] => none
        | value :: rest => do
            let vms : VM := { vm with stack := rest }
            let target ← vms.getMem 1
            let vm2 ← vms.setMem target value
            pure ⟨{ vm2 with pc := vm2.pc + 2 },
                  ExecutionState.Running, [], false⟩
    | Opcode.Eq => do
        let target ← vm.getMem 1
        let a ← vm.getVal 2
        let b ← vm.getVal 3
        let vm2 ← vm.setMem target (if a = b then 1 else 0)
        pure ⟨{ vm2 with pc := vm2.pc + 4 }, ExecutionState.Running, [], false⟩
    | Opcode.Gt => do
        let target ← vm.getMem 1
        let a ← vm.getVal 2
        let b ← vm.getVal 3
        let vm2 ← vm.setMem target (if b < a then 1 else 0)
        pure ⟨{ vm2 with pc := vm2.pc + 4 }, ExecutionState.Running, [], false⟩
    | Opcode.Jmp => do
        let v ← vm.getVal 1
        let n ← toNumber v
        pure ⟨{ vm with pc := n }, ExecutionState.Running, [], false⟩
    | Opcode.Jt => do
        let v ← vm.getVal 1
        let n ← toNumber v
        if n ≠ 0 then do
          let t ← vm.getVal 2
          let m ← toNumber t
          pure ⟨{ vm with pc := m }, ExecutionState.Running, [], false⟩
        else
          pure ⟨{ vm with pc := vm.pc + 3 }, ExecutionState.Running, [], false⟩
    | Opcode.Jf => do
        let v ← vm.getVal 1
        let n ← toNumber v
        if n = 0 then do
          let t ← vm.getVal 2
          let m ← toNumber t
          pure ⟨{ vm with pc := m }, ExecutionState.Running, [], false⟩
        else
          pure ⟨{ vm with pc := vm.pc + 3 }, ExecutionState.Running, [], false⟩
    | Opcode.Add => do
        let target ← vm.getMem 1
        let a ← vm.getVal 2
        let b ← vm.getVal 3
        let vm2 ← vm.setMem target (valueAdd a b)
        pure ⟨{ vm2 with pc := vm2.pc + 4 }, ExecutionState.Running, [], false⟩
    | Opcode.Mult => do
        let target ← vm.getMem 1
        let a ← vm.getVal 2
        let b ← vm.getVal 3
        let vm2 ← vm.setMem target (valueMul a b)
        pure ⟨{ vm2 with pc := vm2.pc + 4 }, ExecutionState.Running, [], false⟩
    | Opcode.Mod => do
        let target ← vm.getMem 1
        let a ← vm.getVal 2
        let b ← vm.getVal 3
        let r ← valueRem a b
        let vm2 ← vm.setMem target r
        pure ⟨{ vm2 with pc := vm2.pc + 4 }, ExecutionState.Running, [], false⟩
    | Opcode.And => do
        let target ← vm.getMem 1
        let a ← vm.getVal 2
        let b ← vm.getVal 3
        let vm2 ← vm.setMem target (valueAnd a b)
        pure ⟨{ vm2 with pc := vm2.pc + 4 }, ExecutionState.Running, [], false⟩
    | Opcode.Or => do
        let target ← vm.getMem 1
        let a ← vm.getVal 2
        let b ← vm.getVal 3
        let vm2 ← vm.setMem target (valueOr a b)
        pure ⟨{ vm2 with pc := vm2.pc + 4 }, ExecutionState.Running, [], false⟩
    | Opcode.Not => do
        let target ← vm.getMem 1
        let a ← vm.getVal 2
        let vm2 ← vm.setMem target (bitNot a)
        pure ⟨{ vm2 with pc := vm2.pc + 3 }, ExecutionState.Running, [], false⟩
    | Opcode.Rmem => do
        let target ← vm.getMem 1
        let v ← vm.getVal 2
        let location ← toNumber v
        let value ← vm.memory[location]?
        let vm2 ← vm.setMem target value
        pure ⟨{ vm2 with pc := vm2.pc + 3 }, ExecutionState.Running, [], false⟩
    | Opcode.Wmem => do
        let v ← vm.getVal 1
        let location ← toNumber v
        let value ← vm.getVal 2
        if location < vm.memory.length then
          pure ⟨{ vm with memory := vm.memory.set location value,
                          pc := vm.pc + 3 },
                ExecutionState.Running, [], false⟩
        else none
    | Opcode.Call => do
        let a ← vm.getVal 1
        let vm2 : VM := { vm with stack := ((vm.pc + 2) % 65536) :: vm.stack }
        let n ← toNumber a
        pure ⟨{ vm2 with pc := n }, ExecutionState.Running, [], false⟩
    | Opcode.Ret =>
        match vm.stack with
        | [] => pure ⟨vm, ExecutionState.Complete, [], false⟩
        | value :: rest => do
            let n ← toNumber value
            pure ⟨{ vm with stack := rest, pc := n },
                  ExecutionState.Running, [], false⟩
    | Opcode.Out => do
        let v ← vm.getVal 1
        let c ← toAscii v
        pure ⟨{ vm with pc := vm.pc + 2 }, ExecutionState.Running, [c], false⟩
    | Opcode.Inp =>
        if vm.input.isEmpty then
          if env.line = saveLine then
            pure ⟨vm, ExecutionState.Running, [], false⟩
          else if env.line = loadLine then
            deliverInput
              { env.saved with input := env.saved.input ++ lookLine ++ [10] }
          else if env.line.any (fun b => 127 < b) then
            pure ⟨vm, ExecutionState.Running, [], false⟩
          else
            deliverInput { vm with input := vm.input ++ env.line ++ [10] }
        else
          deliverInput vm
    | Opcode.Noop =>
        pure ⟨{ vm with pc := vm.pc + 1 }, ExecutionState.Running, [], false⟩

/-- `VM::run`: step until `Complete`, with explicit fuel; returns the final
state and the concatenated character output.  `none` on a panic or when the
fuel runs out. -/
def run (env : StepEnv) : Nat → VM → Option (VM × List Nat)
  | 0, _ => none
  | fuel + 1, vm =>
      match step env vm with
      | none => none
      | some r =>
          match r.state with
          | ExecutionState.Complete => some (r.vm, r.output)
          | ExecutionState.Running =>
              match run env fuel r.vm with
              | none => none
              | some (v, out) => some (v, r.output ++ out)

/-- An environment with an empty pending line and an empty save snapshot. -/
def defaultEnv : StepEnv := ⟨[], VM.new []⟩

end VMChallenge

namespace VMChallenge

/-! ### Concrete machines used in counterexamples and witnesses -/

/-- The spec's example image `add r0 r1 4; out r0; halt` with register 1
holding 65. -/
def vm8 : VM :=
  { memory := [9, 32768, 32769, 4, 19, 32768, 0]
    stack := []
    registers := [0, 65, 0, 0, 0, 0, 0, 0]
    pc := 0
    input := [] }

/-- A `set` instruction whose destination cell is the plain number 5. -/
def vmSetNum : VM :=
  { memory := [1, 5, 7, 0, 0, 0, 0, 0]
    stack := []
    registers := List.replicate 8 0
    pc := 0
    input := [] }

/-- An instruction with raw opcode 7 and both operand cells 0. -/
def vmOp7 : VM :=
  { memory := [7, 0, 0, 0]
    stack := []
    registers := List.replicate 8 0
    pc := 0
    input := [] }

/-- An `eq` instruction (raw opcode 4) with equal operands 7 and 7,
destination address 3. -/
def vmEqSame : VM :=
  { memory := [4, 3, 7, 7]
    stack := []
    registers := List.replicate 8 0
    pc := 0
    input := [] }

/-- An `eq` instruction (raw opcode 4) with unequal operands 7 and 6,
destination address 3. -/
def vmEqDiff : VM :=
  { memory := [4, 3, 7, 6]
    stack := []
    registers := List.replicate 8 0
    pc := 0
    input := [] }

end VMChallenge

namespace VMChallenge

/-- `bitNot` is masking with `2^15 - 1`, i.e. reduction modulo `2^15`. -/
theorem bitNot_eq_mod (a : Nat) : bitNot a = (65535 - a) % 32768 := by
  have h : MATH_MASK = 2 ^ 15 - 1 := by norm_num [MATH_MASK]
  rw [bitNot, h, Nat.and_pow_two_sub_one_eq_mod]

/-- C1 (counterexample): at the 16-bit pair `a = 32769`, `b = 32770` the
code's `modulo` returns the raw remainder `32769`, while the claim's
`(a mod 32768) mod (b mod 32768)` is `1`; the result is also not in
`0..32767`. -/
theorem c1_mod_not_reduced :
    valueRem 32769 32770 = some 32769 ∧
    (32769 % 32768) % (32770 % 32768) = 1 ∧
    valueRem 32769 32770 ≠ some ((32769 % 32768) % (32770 % 32768)) ∧
    ¬ (32769 : Nat) ≤ 32767 := by decide

/-- C1 (amended): `add` and `multiply` reduce the result modulo 32768, but
`modulo` is the raw 16-bit remainder `a % b` with no modular reduction
(failing on a zero raw divisor); its result is below 32768 only when the
operands are plain numbers. -/
theorem arithmetic_ops_spec (a b : Nat) (_ha : a < 65536) (_hb : b < 65536) :
    valueAdd a b = (a + b) % 32768 ∧
    valueMul a b = (a * b) % 32768 ∧
    (b ≠ 0 → valueRem a b = some (a % b)) ∧
    (b = 0 → valueRem a b = none) := by
  refine ⟨rfl, rfl, fun h => ?_, fun h => ?_⟩
  · unfold valueRem; rw [if_neg h]
  · unfold valueRem; rw [if_pos h]

/-- Witness for `arithmetic_ops_spec` at `a = 40000`, `b = 30000`. -/
theorem arithmetic_ops_spec_witness :
    valueAdd 40000 30000 = (40000 + 30000) % 32768 ∧
    valueRem 40000 30000 = some (40000 % 30000) :=
  ⟨(arithmetic_ops_spec 40000 30000 (by decide) (by decide)).1,
   (arithmetic_ops_spec 40000 30000 (by decide) (by decide)).2.2.1
     (by decide)⟩

/-- C6: `get_value_state` is pure and total and partitions the 16-bit space
into three disjoint gap-free ranges: `0..32767` is `Number` with the raw
payload, `32768..32775` is `Register` with index `raw - 32768 ≤ 7`, and
`32776..65535` is `Invalid`. -/
theorem classify_partitions (v : Nat) (hv : v < 65536) :
    (v ≤ 32767 → getValueState v = ValueState.Number v) ∧
    (32768 ≤ v → v ≤ 32775 →
      getValueState v = ValueState.Register (v - 32768) ∧ v - 32768 ≤ 7) ∧
    (32776 ≤ v → getValueState v = ValueState.Invalid) := by
  refine ⟨fun h => ?_, fun h1 h2 => ⟨?_, by omega⟩, fun h => ?_⟩
  · unfold getValueState; rw [if_pos h]
  · unfold getValueState
    rw [if_neg (show ¬ (v ≤ 32767) by omega), if_pos h2]
  · unfold getValueState
    rw [if_neg (show ¬ (v ≤ 32767) by omega),
        if_neg (show ¬ (v ≤ 32775) by omega)]

/-- Witness for `classify_partitions` at one value of each range. -/
theorem classify_partitions_witness :
    getValueState 5 = ValueState.Number 5 ∧
    getValueState 32770 = ValueState.Register 2 ∧
    getValueState 40000 = ValueState.Invalid :=
  ⟨(classify_partitions 5 (by decide)).1 (by decide),
   ((classify_partitions 32770 (by decide)).2.1 (by decide) (by decide)).1,
   (classify_partitions 40000 (by decide)).2.2 (by decide)⟩

/-- C7: `bit_not` is an involution on plain numbers (`0..32767`), and on any
16-bit cell its result always classifies as a plain number. -/
theorem bit_not_involution :
    (∀ x : Nat, x ≤ 32767 → bitNot (bitNot x) = x) ∧
    (∀ y : Nat, y < 65536 →
      getValueState (bitNot y) = ValueState.Number (bitNot y)) := by
  constructor
  · intro x hx
    rw [bitNot_eq_mod, bitNot_eq_mod]
    show (65535 - (65535 - x) % 32768) % 32768 = x
    omega
  · intro y hy
    have h : bitNot y ≤ 32767 := by
      rw [bitNot_eq_mod]
      show (65535 - y) % 32768 ≤ 32767
      omega
    unfold getValueState
    rw [if_pos h]

/-- Witness for `bit_not_involution` at `x = 12345` and `y = 40000`. -/
theorem bit_not_involution_witness :
    bitNot (bitNot 12345) = 12345 ∧
    getValueState (bitNot 40000) = ValueState.Number (bitNot 40000) :=
  ⟨bit_not_involution.1 12345 (by decide),
   bit_not_involution.2 40000 (by decide)⟩

end VMChallenge

namespace VMChallenge

/-- C3: when the cell at the program counter does not decode to one of the
22 known opcodes (unknown number, register selector, or invalid cell), a
step emits the diagnostic, stays `Running`, advances the pc by exactly 1,
and leaves memory, registers, stack, and input queue untouched. -/
theorem unknown_opcode_skips (env : StepEnv) (vm : VM) (c : Value)
    (hc : vm.memory[vm.pc]? = some c) (hdec : tryFromValue c = none) :
    step env vm =
      some ⟨{ vm with pc := vm.pc + 1 }, ExecutionState.Running, [], true⟩ := by
  simp [step, hc, hdec]

/-- Witness for `unknown_opcode_skips` on the single-cell image `[99]`. -/
theorem unknown_opcode_skips_witness :
    step defaultEnv (VM.new [99]) =
      some ⟨{ VM.new [99] with pc := (VM.new [99]).pc + 1 },
            ExecutionState.Running, [], true⟩ :=
  unknown_opcode_skips defaultEnv (VM.new [99]) 99 rfl rfl

/-- C4: executing `in` with an empty input queue when the interactive line
is the literal `save` returns `Running` with the whole machine state
unchanged (pc not advanced, nothing written), so the same `in` instruction
is retried on the next cycle. -/
theorem in_save_retries (env : StepEnv) (vm : VM)
    (hop : vm.memory[vm.pc]? = some 20) (hq : vm.input = [])
    (hl : env.line = saveLine) :
    step env vm = some ⟨vm, ExecutionState.Running, [], false⟩ := by
  have h20 : tryFromValue 20 = some Opcode.Inp := rfl
  simp [step, hop, h20, hq, hl]

/-- Witness for `in_save_retries` on the single-cell image `[20]`. -/
theorem in_save_retries_witness :
    step ⟨saveLine, VM.new []⟩ (VM.new [20]) =
      some ⟨VM.new [20], ExecutionState.Running, [], false⟩ :=
  in_save_retries ⟨saveLine, VM.new []⟩ (VM.new [20]) rfl rfl rfl

/-- C5: executing `ret` with an empty stack transitions to `Complete`
without any error, leaving memory, registers, stack, pc, and input queue
unchanged: it is the designed termination condition. -/
theorem ret_empty_stack_halts (env : StepEnv) (vm : VM)
    (hop : vm.memory[vm.pc]? = some 18) (hs : vm.stack = []) :
    step env vm = some ⟨vm, ExecutionState.Complete, [], false⟩ := by
  have h18 : tryFromValue 18 = some Opcode.Ret := rfl
  simp [step, hop, h18, hs]

/-- Witness for `ret_empty_stack_halts` on the single-cell image `[18]`. -/
theorem ret_empty_stack_halts_witness :
    step defaultEnv (VM.new [18]) =
      some ⟨VM.new [18], ExecutionState.Complete, [], false⟩ :=
  ret_empty_stack_halts defaultEnv (VM.new [18]) rfl rfl

end VMChallenge

namespace VMChallenge

/-- C2 (counterexample): on the image `[1, 5, 7, 0, 0, 0, 0, 0]` the `set`
instruction's destination cell `5` classifies as a plain number and names
an in-bounds memory address, yet the machine aborts (`to_register` panics)
instead of writing to memory address 5. -/
theorem c2_set_number_dest_aborts :
    getValueState 5 = ValueState.Number 5 ∧
    5 < vmSetNum.memory.length ∧
    step defaultEnv vmSetNum = none := by decide

/-- C2 (amended): for destinations written through `set_memory` (pop, eq,
gt, add, mult, mod, and, or, not, rmem, in) a number-classified raw cell
writes to that absolute memory address, a register selector writes to that
register, and an invalid cell aborts; `set` is the exception — its
destination must classify as a register selector, and a number-classified
destination aborts the machine. -/
theorem address_operand_spec (vm : VM) (target value : Value) :
    (∀ n, getValueState target = ValueState.Number n →
      n < vm.memory.length →
      vm.setMem target value = some { vm with memory := vm.memory.set n value }) ∧
    (∀ r, getValueState target = ValueState.Register r →
      r < vm.registers.length →
      vm.setMem target value =
        some { vm with registers := vm.registers.set r value }) ∧
    (getValueState target = ValueState.Invalid →
      vm.setMem target value = none) ∧
    (∀ env c n, vm.memory[vm.pc]? = some 1 → vm.getMem 1 = some c →
      getValueState c = ValueState.Number n → step env vm = none) := by
  refine ⟨fun n hn hlt => ?_, fun r hr hlt => ?_, fun hi => ?_,
          fun env c n h1 hc hn => ?_⟩
  · simp [VM.setMem, hn, hlt]
  · simp [VM.setMem, hr, hlt]
  · simp [VM.setMem, hi]
  · have hdec : tryFromValue 1 = some Opcode.Set := rfl
    have hreg : toRegister c = none := by unfold toRegister; rw [hn]
    simp [step, h1, hdec, hc, hreg]

/-- Witness for `address_operand_spec`: a number-target write through
`set_memory`, and the abort of `set` with a number destination. -/
theorem address_operand_spec_witness :
    VM.setMem vmSetNum 3 9 =
      some { vmSetNum with memory := vmSetNum.memory.set 3 9 } ∧
    step defaultEnv vmSetNum = none :=
  ⟨(address_operand_spec vmSetNum 3 9).1 3 rfl (by decide),
   (address_operand_spec vmSetNum 5 0).2.2.2 defaultEnv 5 5 rfl rfl rfl⟩

/-- C9 (counterexample): raw opcode 7 decodes to `jt`, not `eq`: on the
image `[7, 0, 0, 0]` (both would-be value operands equal) the step jumps
nowhere and writes nothing — memory cell 0 still holds 7, not the 1 the
claim requires — while raw opcode 4 is the one that decodes to `eq`. -/
theorem c9_opcode7_is_jt_not_eq :
    tryFromValue 7 = some Opcode.Jt ∧
    tryFromValue 4 = some Opcode.Eq ∧
    step defaultEnv vmOp7 =
      some ⟨{ vmOp7 with pc := 3 }, ExecutionState.Running, [], false⟩ ∧
    ({ vmOp7 with pc := 3 } : VM).memory[0]? = some 7 := by decide

/-- C9 (amended): the instruction with raw opcode value 4 is `eq`: on two
value operands it writes 1 to the destination when they resolve to equal
cells and 0 when they resolve to unequal cells, then advances the pc by 4. -/
theorem eq_opcode_writes_flag (env : StepEnv) (vm : VM) (t a b : Value)
    (vm2 : VM)
    (hop : vm.memory[vm.pc]? = some 4)
    (ht : vm.getMem 1 = some t)
    (ha : vm.getVal 2 = some a) (hb : vm.getVal 3 = some b)
    (hw : vm.setMem t (if a = b then 1 else 0) = some vm2) :
    step env vm =
      some ⟨{ vm2 with pc := vm2.pc + 4 }, ExecutionState.Running, [], false⟩ := by
  have hdec : tryFromValue 4 = some Opcode.Eq := rfl
  simp [step, hop, hdec, ht, ha, hb, hw]

/-- Witness for `eq_opcode_writes_flag`: equal operands write 1 and unequal
operands write 0 on concrete images. -/
theorem eq_opcode_writes_flag_witness :
    step defaultEnv vmEqSame =
      some ⟨{ vmEqSame with memory := [4, 3, 7, 1], pc := 4 },
            ExecutionState.Running, [], false⟩ ∧
    step defaultEnv vmEqDiff =
      some ⟨{ vmEqDiff with memory := [4, 3, 7, 0], pc := 4 },
            ExecutionState.Running, [], false⟩ :=
  ⟨eq_opcode_writes_flag defaultEnv vmEqSame 3 7 7
      { vmEqSame with memory := [4, 3, 7, 1] } rfl rfl rfl rfl (by decide),
   eq_opcode_writes_flag defaultEnv vmEqDiff 3 7 6
      { vmEqDiff with memory := [4, 3, 7, 0] } rfl rfl rfl rfl (by decide)⟩

end VMChallenge

namespace VMChallenge

/-- C8 (counterexample): the image `[9, 32768, 32769, 4, 19, 32768, 0]`
(`add r0 r1 4; out r0; halt`) with register 1 holding 65 runs to halt
writing exactly one character — but it is code 69 (`E`, since
`65 + 4 = 69`), not 65 (`A`) as the claim states. -/
theorem c8_output_is_E_not_A :
    (run defaultEnv 10 vm8).map (fun r => r.2) = some [69] ∧
    some [69] ≠ some ([65] : List Nat) := by decide

/-- C8 (amended): the machine built from `[9, 32768, 32769, 4, 19, 32768,
0]` with register 1 holding 65 runs to halt writing exactly the single
character code 69 (`E`) to the output stream. -/
theorem add_out_program_output :
    (run defaultEnv 10 vm8).map (fun r => r.2) = some [69] := by decide

/-- C10: every memory access aborts the machine when its computed index
falls at or beyond the end of the image: the instruction fetch at `pc`,
an operand fetch at `pc + offset` (shown for `add`, whose last operand sits
at `pc + 3`), the `rmem` read at a computed location, the `wmem` write at a
computed location, and a number-addressed `set_memory` destination write. -/
theorem memory_access_bounds (env : StepEnv) (vm : VM) :
    (vm.memory.length ≤ vm.pc → step env vm = none) ∧
    (∀ loc, vm.memory[vm.pc]? = some 15 →
      (vm.getVal 2).bind toNumber = some loc → vm.memory.length ≤ loc →
      step env vm = none) ∧
    (∀ loc, vm.memory[vm.pc]? = some 16 →
      (vm.getVal 1).bind toNumber = some loc → vm.memory.length ≤ loc →
      step env vm = none) ∧
    (∀ t v n, getValueState t = ValueState.Number n →
      vm.memory.length ≤ n → vm.setMem t v = none) ∧
    (vm.memory[vm.pc]? = some 9 → vm.memory.length ≤ vm.pc + 3 →
      step env vm = none) := by
  refine ⟨fun h => ?_, fun loc hop hloc hle => ?_, fun loc hop hloc hle => ?_,
          fun t v n hn hle => ?_, fun hop hle => ?_⟩
  · have hfetch : vm.memory[vm.pc]? = none := List.getElem?_eq_none h
    simp [step, hfetch]
  · have hdec : tryFromValue 15 = some Opcode.Rmem := rfl
    obtain ⟨v, hv, hn⟩ := Option.bind_eq_some.mp hloc
    have hmem : vm.memory[loc]? = none := List.getElem?_eq_none hle
    cases h1 : vm.getMem 1 with
    | none => simp [step, hop, hdec, h1]
    | some t => simp [step, hop, hdec, h1, hv, hn, hmem]
  · have hdec : tryFromValue 16 = some Opcode.Wmem := rfl
    obtain ⟨v, hv, hn⟩ := Option.bind_eq_some.mp hloc
    cases h2 : vm.getVal 2 with
    | none => simp [step, hop, hdec, hv, hn, h2]
    | some w => simp [step, hop, hdec, hv, hn, h2, Nat.not_lt.mpr hle]
  · simp [VM.setMem, hn, Nat.not_lt.mpr hle]
  · have hdec : tryFromValue 9 = some Opcode.Add := rfl
    have h3 : vm.getMem 3 = none := by
      unfold VM.getMem
      exact List.getElem?_eq_none (by omega)
    cases h1 : vm.getMem 1 with
    | none => simp [step, hop, hdec, h1]
    | some t =>
      cases h2 : vm.getVal 2 with
      | none => simp [step, hop, hdec, h1, h2]
      | some a =>
        have h3v : vm.getVal 3 = none := by
          unfold VM.getVal
          rw [h3]
          rfl
        simp [step, hop, hdec, h1, h2, h3v]

/-- Witness for `memory_access_bounds`: the fetch on an empty image and a
number-addressed destination write past the end of a one-cell image. -/
theorem memory_access_bounds_witness :
    step defaultEnv (VM.new []) = none ∧
    VM.setMem (VM.new [0]) 5 1 = none :=
  ⟨(memory_access_bounds defaultEnv (VM.new [])).1 (by decide),
   (memory_access_bounds defaultEnv (VM.new [0])).2.2.2.1 5 1 5 rfl
     (by decide)⟩

end VMChallenge
